import Mathlib

/-!
Verification of the pixel-art editor's composition layout engine, brush
rasterizer preview, and sprite-grid resize against their TypeScript source
(`src/components/CompositionCanvas.tsx`, `src/components/Canvas.tsx`,
`src/components/CompositionLayerPanel`, `src/hooks/useProject.ts`).

Machine integers of the source are modelled as `Int`/`Nat`; the single
floating-point expression (`Math.round(value / gridSize)`) is modelled
exactly over `ℚ`, which agrees with the IEEE computation on the integer
inputs the program feeds it.
-/

namespace ArduboyPixels

/-! ## Brush rasterizer preview (`Canvas.tsx`, lines 162–192)

The brush preview loop iterates `dy, dx ∈ [-⌊size/2⌋, ⌊size/2⌋]`, checks the
cell against the grid bounds, and for the `round` style draws only when
`Math.sqrt(dx*dx + dy*dy) <= size / 2`.  For integers `dx, dy, size` that
float comparison coincides with `4*(dx² + dy²) ≤ size²` (both sides of the
real inequality are exactly representable on the inputs that occur, and
`Math.sqrt` is correctly rounded), which is how the test is written here. -/

inductive BrushStyle where
  | square : BrushStyle
  | round : BrushStyle
deriving DecidableEq

/-- The offset range `[-⌊size/2⌋, ⌊size/2⌋]` walked by both brush loops
(`for (let dy = -Math.floor(size / 2); dy <= Math.floor(size / 2); dy++)`). -/
def offsetRange (size : ℕ) : List ℤ :=
  (List.range (2 * (size / 2) + 1)).map (fun i => (i : ℤ) - (size / 2 : ℕ))

/-- The set of cells the brush preview paints, from `Canvas.tsx` lines
162–192: a single cell for `size = 1`, otherwise the double loop over
`offsetRange` with the grid-bounds check and, for `round`, the distance
test (in its exact squared form, see above). -/
def brushPreviewCells (width height cx cy : ℤ) (size : ℕ) (style : BrushStyle) :
    List (ℤ × ℤ) :=
  if size = 1 then [(cx, cy)] else
  (offsetRange size).flatMap (fun dy =>
    (offsetRange size).filterMap (fun dx =>
      let x := cx + dx
      let y := cy + dy
      if 0 ≤ x ∧ x < width ∧ 0 ≤ y ∧ y < height then
        match style with
        | BrushStyle.round =>
          if 4 * (dx * dx + dy * dy) ≤ (size : ℤ) * size then some (x, y) else none
        | BrushStyle.square => some (x, y)
      else none))

/-- C8 counterexample: the round size-3 brush centered at `(5,5)` does paint
the corner cell `(4,4)` (offset `(-1,-1)`), because `sqrt 2 ≈ 1.414 ≤ 1.5`;
the corner is not excluded relative to the square brush. -/
theorem round3_brush_corner_counterexample :
    ((4 : ℤ), (4 : ℤ)) ∈ brushPreviewCells 10 10 5 5 3 BrushStyle.round ∧
    ((4 : ℤ), (4 : ℤ)) ∈ brushPreviewCells 10 10 5 5 3 BrushStyle.square := by
  constructor <;> decide

/-- C8 amended: for brush size 3 the round distance test
`sqrt (dx² + dy²) ≤ 3/2` accepts every offset of the square brush — in
particular the corner `(-1,-1)`, since `sqrt 2 ≤ 1.5` — so the round and the
square size-3 brushes paint exactly the same cells on every grid and at
every center. -/
theorem round3_brush_eq_square3 (w h cx cy : ℤ) :
    brushPreviewCells w h cx cy 3 BrushStyle.round =
      brushPreviewCells w h cx cy 3 BrushStyle.square := by
  have h3 : offsetRange 3 = [-1, 0, 1] := by decide
  simp only [brushPreviewCells, h3, List.flatMap_cons, List.flatMap_nil,
    List.filterMap_cons, List.filterMap_nil]
  norm_num

/-! ## Layer dragging (`CompositionCanvas.tsx`)

`snapToGridFn` (lines 50–56) is `Math.round(value / gridSize) * gridSize`
when snapping is on; JavaScript `Math.round x = ⌊x + 1/2⌋`.  `handleMouseMove`
(lines 243–271) snaps the raw drag coordinates and then clamps each axis with
`Math.max(0, Math.min(compositionSize - spriteSize, value))`. -/

/-- `snapToGridFn` from `CompositionCanvas.tsx` lines 50–56:
`Math.round(value / gridSize) * gridSize` when `snapToGrid` holds, else the
value unchanged.  `Math.round x` is `⌊x + 1/2⌋`. -/
def snapToGridFn (snapToGrid : Bool) (value gridSize : ℤ) : ℤ :=
  if !snapToGrid then value
  else ⌊(value : ℚ) / (gridSize : ℚ) + 1/2⌋ * gridSize

/-- The position stored for a dragged layer, from `handleMouseMove` in
`CompositionCanvas.tsx` lines 243–271: snap each raw axis (grid size 8),
then clamp with `Math.max(0, Math.min(composition - sprite, value))`. -/
def moveLayer (compW compH spriteW spriteH rawX rawY : ℤ) (snap : Bool) : ℤ × ℤ :=
  let newX := snapToGridFn snap rawX 8
  let newY := snapToGridFn snap rawY 8
  (max 0 (min (compW - spriteW) newX),
   max 0 (min (compH - spriteH) newY))

/-! ### Facts about the snap step -/

theorem snap8_bounds (x : ℤ) :
    snapToGridFn true x 8 - 4 ≤ x ∧ x < snapToGridFn true x 8 + 4 := by
  have h1 : (⌊(x : ℚ) / 8 + 1/2⌋ : ℚ) ≤ (x : ℚ) / 8 + 1/2 := Int.floor_le _
  have h2 : (x : ℚ) / 8 + 1/2 < ⌊(x : ℚ) / 8 + 1/2⌋ + 1 := Int.lt_floor_add_one _
  have h1' : (⌊(x : ℚ) / 8 + 1/2⌋ : ℚ) * 8 - 4 ≤ (x : ℚ) := by linarith
  have h2' : (x : ℚ) < (⌊(x : ℚ) / 8 + 1/2⌋ : ℚ) * 8 + 4 := by linarith
  constructor
  · simp only [snapToGridFn, Bool.not_true, if_neg]
    exact_mod_cast h1'
  · simp only [snapToGridFn, Bool.not_true, if_neg]
    exact_mod_cast h2'

theorem snap8_dvd (x : ℤ) : (8 : ℤ) ∣ snapToGridFn true x 8 :=
  ⟨⌊(x : ℚ) / 8 + 1/2⌋, by simp [snapToGridFn, mul_comm]⟩

theorem snap8_nearest (x m : ℤ) (hm : (8 : ℤ) ∣ m) :
    (x - snapToGridFn true x 8).natAbs ≤ (x - m).natAbs := by
  obtain ⟨h1, h2⟩ := snap8_bounds x
  have hd := snap8_dvd x
  omega

/-- C1: dragging a layer with snap enabled rounds each raw axis to the
nearest multiple of 8 independently, then clamps so the sprite's bounding
box stays inside the composition: the stored position is
`(max 0 (min (compW - spriteW) snappedX), max 0 (min (compH - spriteH) snappedY))`,
which lies in `[0, compW - spriteW] × [0, compH - spriteH]` whenever the
sprite fits inside the composition. -/
theorem moveLayer_snap_clamp (compW compH spriteW spriteH rawX rawY : ℤ)
    (hw : spriteW ≤ compW) (hh : spriteH ≤ compH) :
    moveLayer compW compH spriteW spriteH rawX rawY true =
      (max 0 (min (compW - spriteW) (snapToGridFn true rawX 8)),
       max 0 (min (compH - spriteH) (snapToGridFn true rawY 8))) ∧
    (8 : ℤ) ∣ snapToGridFn true rawX 8 ∧
    (8 : ℤ) ∣ snapToGridFn true rawY 8 ∧
    (∀ m : ℤ, (8 : ℤ) ∣ m →
      (rawX - snapToGridFn true rawX 8).natAbs ≤ (rawX - m).natAbs) ∧
    (∀ m : ℤ, (8 : ℤ) ∣ m →
      (rawY - snapToGridFn true rawY 8).natAbs ≤ (rawY - m).natAbs) ∧
    0 ≤ (moveLayer compW compH spriteW spriteH rawX rawY true).1 ∧
    (moveLayer compW compH spriteW spriteH rawX rawY true).1 ≤ compW - spriteW ∧
    0 ≤ (moveLayer compW compH spriteW spriteH rawX rawY true).2 ∧
    (moveLayer compW compH spriteW spriteH rawX rawY true).2 ≤ compH - spriteH := by
  refine ⟨rfl, snap8_dvd rawX, snap8_dvd rawY,
    fun m hm => snap8_nearest rawX m hm, fun m hm => snap8_nearest rawY m hm,
    ?_, ?_, ?_, ?_⟩
  · exact le_max_left 0 _
  · exact max_le (by omega) (min_le_left _ _)
  · exact le_max_left 0 _
  · exact max_le (by omega) (min_le_left _ _)

/-- C1 witness: raw drag input `(13,13)` on a 64×64 composition with an 8×8
sprite snaps to `(16,16)`, which lies in `[0,56]` on each axis. -/
theorem moveLayer_snap_clamp_witness :
    moveLayer 64 64 8 8 13 13 true = (16, 16) ∧
    ((8 : ℤ) ≤ 64 ∧
      0 ≤ (moveLayer 64 64 8 8 13 13 true).1 ∧
      (moveLayer 64 64 8 8 13 13 true).1 ≤ 64 - 8 ∧
      0 ≤ (moveLayer 64 64 8 8 13 13 true).2 ∧
      (moveLayer 64 64 8 8 13 13 true).2 ≤ 64 - 8) := by
  have h := moveLayer_snap_clamp 64 64 8 8 13 13 (by norm_num) (by norm_num)
  refine ⟨?_, by norm_num, h.2.2.2.2.2.1, h.2.2.2.2.2.2.1,
    h.2.2.2.2.2.2.2.1, h.2.2.2.2.2.2.2.2⟩
  norm_num [moveLayer, snapToGridFn]

/-- C2 counterexample: with an 8×8 composition and a 16×16 sprite, the clamp
bound `8 - 16 = -8` is negative, yet dragging to raw position `(-8,-8)`
(snap off) stores `(0,0)` — the position is not allowed to take the negative
clamp-bound value. -/
theorem moveLayer_oversized_counterexample :
    moveLayer 8 8 16 16 (-8) (-8) false = (0, 0) ∧
    ¬ (moveLayer 8 8 16 16 (-8) (-8) false).1 < 0 ∧
    (8 : ℤ) - 16 = -8 := by
  refine ⟨?_, by norm_num [moveLayer, snapToGridFn], by norm_num⟩
  norm_num [moveLayer, snapToGridFn]

/-- C2 amended: on each axis independently, a sprite strictly larger than
the composition makes the clamp bound `comp - sprite` negative, but the
outer `Math.max(0, ·)` overrides it, so the dragged position stored for
that axis is always exactly `0`; and on every input whatsoever the stored
position is non-negative on both axes — dragging can never store a negative
position. -/
theorem moveLayer_oversized_pins_origin (compW compH spriteW spriteH rawX rawY : ℤ)
    (snap : Bool) :
    (compW < spriteW →
      compW - spriteW < 0 ∧
      (moveLayer compW compH spriteW spriteH rawX rawY snap).1 = 0) ∧
    (compH < spriteH →
      compH - spriteH < 0 ∧
      (moveLayer compW compH spriteW spriteH rawX rawY snap).2 = 0) ∧
    0 ≤ (moveLayer compW compH spriteW spriteH rawX rawY snap).1 ∧
    0 ≤ (moveLayer compW compH spriteW spriteH rawX rawY snap).2 := by
  refine ⟨fun hw => ⟨by omega, ?_⟩, fun hh => ⟨by omega, ?_⟩, ?_, ?_⟩
  · show max 0 (min (compW - spriteW) (snapToGridFn snap rawX 8)) = 0
    exact max_eq_left (le_trans (min_le_left _ _) (by omega))
  · show max 0 (min (compH - spriteH) (snapToGridFn snap rawY 8)) = 0
    exact max_eq_left (le_trans (min_le_left _ _) (by omega))
  · show (0 : ℤ) ≤ max 0 (min (compW - spriteW) (snapToGridFn snap rawX 8))
    exact le_max_left 0 _
  · show (0 : ℤ) ≤ max 0 (min (compH - spriteH) (snapToGridFn snap rawY 8))
    exact le_max_left 0 _

/-- C2 amended witness: an 8×64 composition with a 16×8 sprite — wider but
**not** taller.  Dragging to raw `(20, -20)` pins the x axis to `0`, and the
y axis (where the sprite fits) is still non-negative. -/
theorem moveLayer_oversized_pins_origin_witness :
    (8 : ℤ) < 16 ∧
    (moveLayer 8 64 16 8 20 (-20) true).1 = 0 ∧
    0 ≤ (moveLayer 8 64 16 8 20 (-20) true).2 :=
  ⟨by norm_num,
    ((moveLayer_oversized_pins_origin 8 64 16 8 20 (-20) true).1 (by norm_num)).2,
    (moveLayer_oversized_pins_origin 8 64 16 8 20 (-20) true).2.2.2⟩

/-! ## Composition data model (`src/types/index.ts`)

Sprites are identified by a numeric id standing for the string id of the
`ProjectItem`; `resolveSprite` models
`sprites.find(s => s.id === spriteId)?.spriteData || null` /
`findItemById(project.items, spriteId)?.spriteData`.  Only the fields the
claims touch are modelled. -/

structure Sprite where
  id : ℕ
  width : ℕ
  height : ℕ
deriving DecidableEq

structure CompositionLayer where
  id : ℕ
  spriteId : ℕ
  x : ℤ
  y : ℤ
  zIndex : ℤ
  visible : Bool
deriving DecidableEq

structure CompositionData where
  width : ℕ
  height : ℕ
  layers : List CompositionLayer
deriving DecidableEq

/-- Sprite lookup by id; `none` models a dangling reference. -/
def resolveSprite (sprites : List Sprite) (spriteId : ℕ) : Option Sprite :=
  sprites.find? (fun s => s.id == spriteId)

/-! ## Layer reordering (`CompositionLayerPanel`, `useProject.ts`)

`handleMoveUp`/`handleMoveDown` issue two `onLayerUpdate` calls in sequence.
`onLayerUpdate` is `updateCompositionLayer` from `useProject`, which rebuilds
the layer list from the `project.items` captured in the hook's closure and
then stores the rebuilt composition wholesale via `updateItem`.  Both calls
of one click handler read the same pre-event snapshot, so the composition
stored by the second call is computed from the original layer list and
replaces (discards) the result of the first call.  The definitions below
embed that composed behaviour: each `updateCompositionLayerZ` is computed
from the snapshot `layers`, and the final state is the second update. -/

/-- `updateCompositionLayer` (`useProject.ts`) restricted to a `zIndex`
update: map over the layer list, replacing the matching layer's `zIndex`. -/
def updateCompositionLayerZ (layers : List CompositionLayer) (layerId : ℕ)
    (newZ : ℤ) : List CompositionLayer :=
  layers.map (fun l => if l.id == layerId then { l with zIndex := newZ } else l)

/-- `handleMoveUp` from `CompositionLayerPanel`: find the layer, find the
closest strictly-higher layer by `zIndex` (via `reduce`, first element as
seed), then issue the two z-updates; both are computed from the same
snapshot and the second one is the state that survives. -/
def handleMoveUp (layers : List CompositionLayer) (layerId : ℕ) :
    List CompositionLayer :=
  match layers.find? (fun l => l.id == layerId) with
  | none => layers
  | some layer =>
    match layers.filter (fun l => layer.zIndex < l.zIndex) with
    | [] => layers
    | h :: t =>
      let nextHigherLayer := t.foldl
        (fun closest current =>
          if current.zIndex < closest.zIndex then current else closest) h
      let _afterFirstUpdate :=
        updateCompositionLayerZ layers layerId nextHigherLayer.zIndex
      updateCompositionLayerZ layers nextHigherLayer.id layer.zIndex

/-- `handleMoveDown` from `CompositionLayerPanel`, same two-update shape with
the closest strictly-lower layer. -/
def handleMoveDown (layers : List CompositionLayer) (layerId : ℕ) :
    List CompositionLayer :=
  match layers.find? (fun l => l.id == layerId) with
  | none => layers
  | some layer =>
    match layers.filter (fun l => l.zIndex < layer.zIndex) with
    | [] => layers
    | h :: t =>
      let nextLowerLayer := t.foldl
        (fun closest current =>
          if closest.zIndex < current.zIndex then current else closest) h
      let _afterFirstUpdate :=
        updateCompositionLayerZ layers layerId nextLowerLayer.zIndex
      updateCompositionLayerZ layers nextLowerLayer.id layer.zIndex

/-- C3: moving the bottom layer down is indeed a no-op, but moving a
non-extreme layer up does **not** swap the two `zIndex` values: with layers
`A (id 1, z 0)` and `B (id 2, z 1)`, moving `A` up leaves `A` at `0` and
sets `B` to `0` (both updates were computed from the pre-event snapshot and
the second overwrote the first), instead of the swap `A ↦ 1, B ↦ 0`. -/
theorem handleMoveUp_not_a_swap :
    handleMoveUp [⟨1, 100, 0, 0, 0, true⟩, ⟨2, 100, 0, 0, 1, true⟩] 1 =
      [⟨1, 100, 0, 0, 0, true⟩, ⟨2, 100, 0, 0, 0, true⟩] ∧
    handleMoveUp [⟨1, 100, 0, 0, 0, true⟩, ⟨2, 100, 0, 0, 1, true⟩] 1 ≠
      [⟨1, 100, 0, 0, 1, true⟩, ⟨2, 100, 0, 0, 0, true⟩] ∧
    handleMoveDown [⟨1, 100, 0, 0, 0, true⟩, ⟨2, 100, 0, 0, 1, true⟩] 1 =
      [⟨1, 100, 0, 0, 0, true⟩, ⟨2, 100, 0, 0, 1, true⟩] := by
  refine ⟨by decide, by decide, by decide⟩

/-! ## Hit testing (`CompositionCanvas.tsx`, `handleMouseDown` lines 184–206)

The selection path sorts the layers by descending `zIndex`
(`sort((a, b) => b.zIndex - a.zIndex)`), filters to visible layers, skips
layers whose sprite does not resolve, and returns the first layer whose
bounding box (half-open) contains the point. -/

/-- Descending-`zIndex` sort (`[...layers].sort((a, b) => b.zIndex - a.zIndex)`).
The relative order of layers with equal `zIndex` is not relied upon by any
theorem below. -/
def sortByZDesc (layers : List CompositionLayer) : List CompositionLayer :=
  List.insertionSort (fun a b => b.zIndex ≤ a.zIndex) layers

/-- The bounding-box test from `handleMouseDown`:
`x >= layer.x && x < layer.x + width && y >= layer.y && y < layer.y + height`. -/
def layerContains (s : Sprite) (l : CompositionLayer) (x y : ℤ) : Prop :=
  l.x ≤ x ∧ x < l.x + s.width ∧ l.y ≤ y ∧ y < l.y + s.height

instance (s : Sprite) (l : CompositionLayer) (x y : ℤ) :
    Decidable (layerContains s l x y) := by
  unfold layerContains; infer_instance

/-- The per-layer test of the selection loop: `continue` on a dangling
sprite reference, otherwise the bounding-box containment. -/
def hitPredicate (sprites : List Sprite) (x y : ℤ) (l : CompositionLayer) : Bool :=
  match resolveSprite sprites l.spriteId with
  | none => false
  | some s => decide (layerContains s l x y)

/-- The selection loop of `handleMouseDown` lines 184–206: first visible
layer in descending-`zIndex` order whose sprite resolves and whose bounding
box contains the point; `none` models `onLayerSelect(null)`. -/
def hitTest (sprites : List Sprite) (layers : List CompositionLayer)
    (x y : ℤ) : Option ℕ :=
  (((sortByZDesc layers).filter (fun l => l.visible)).find?
      (hitPredicate sprites x y)).map (fun l => l.id)

/-- Decomposition of a successful `find?`: the found element satisfies the
predicate and everything before it fails. -/
theorem find?_some_split {α : Type} (p : α → Bool) (l : List α) (b : α)
    (h : l.find? p = some b) :
    p b = true ∧ ∃ l₁ l₂, l = l₁ ++ b :: l₂ ∧ ∀ a ∈ l₁, p a = false := by
  induction l with
  | nil => cases h
  | cons hd tl ih =>
    by_cases hp : p hd
    · rw [List.find?_cons_of_pos _ hp] at h
      obtain rfl : hd = b := by injection h
      exact ⟨hp, [], tl, rfl, by intro a ha; cases ha⟩
    · rw [List.find?_cons_of_neg _ (by simpa using hp)] at h
      obtain ⟨hb, l₁, l₂, rfl, hfail⟩ := ih h
      refine ⟨hb, hd :: l₁, l₂, rfl, ?_⟩
      intro a ha
      rcases List.mem_cons.mp ha with rfl | ha
      · simpa using hp
      · exact hfail a ha

theorem hitPredicate_eq_true_iff (sprites : List Sprite) (x y : ℤ)
    (l : CompositionLayer) :
    hitPredicate sprites x y l = true ↔
      ∃ s, resolveSprite sprites l.spriteId = some s ∧ layerContains s l x y := by
  unfold hitPredicate
  cases h : resolveSprite sprites l.spriteId with
  | none => simp [h]
  | some s => simp [h]

instance : IsTotal CompositionLayer (fun a b => b.zIndex ≤ a.zIndex) :=
  ⟨fun a b => le_total b.zIndex a.zIndex⟩

instance : IsTrans CompositionLayer (fun a b => b.zIndex ≤ a.zIndex) :=
  ⟨fun _ _ _ h1 h2 => le_trans h2 h1⟩

theorem sortByZDesc_perm (layers : List CompositionLayer) :
    (sortByZDesc layers).Perm layers :=
  List.perm_insertionSort _ layers

theorem sortByZDesc_pairwise (layers : List CompositionLayer) :
    (sortByZDesc layers).Pairwise (fun a b => b.zIndex ≤ a.zIndex) :=
  List.sorted_insertionSort _ layers

/-- C7: hit-testing returns the id of a visible, resolvable layer whose
bounding box contains the point and whose `zIndex` is maximal among all such
layers (it is the first one in descending-`zIndex` order); it returns `none`
exactly when no visible layer with a resolvable sprite contains the point —
layers with dangling sprite references are skipped and never make the test
fail. -/
theorem hitTest_characterization (sprites : List Sprite)
    (layers : List CompositionLayer) (x y : ℤ) :
    (∀ i, hitTest sprites layers x y = some i →
      ∃ l ∈ layers, l.id = i ∧ l.visible = true ∧
        ∃ s, resolveSprite sprites l.spriteId = some s ∧ layerContains s l x y ∧
          ∀ l' ∈ layers, l'.visible = true →
            ∀ s', resolveSprite sprites l'.spriteId = some s' →
              layerContains s' l' x y → l'.zIndex ≤ l.zIndex) ∧
    (hitTest sprites layers x y = none ↔
      ∀ l ∈ layers, l.visible = true →
        ∀ s, resolveSprite sprites l.spriteId = some s →
          ¬ layerContains s l x y) := by
  have hmemfl : ∀ l : CompositionLayer,
      l ∈ (sortByZDesc layers).filter (fun l => l.visible) ↔
        l ∈ layers ∧ l.visible = true := by
    intro l
    rw [List.mem_filter, (sortByZDesc_perm layers).mem_iff]
  have hpairfl : ((sortByZDesc layers).filter (fun l => l.visible)).Pairwise
      (fun a b => b.zIndex ≤ a.zIndex) :=
    List.Pairwise.sublist (List.filter_sublist _) (sortByZDesc_pairwise layers)
  constructor
  · intro i hi
    unfold hitTest at hi
    rcases Option.map_eq_some'.mp hi with ⟨l, hfind, hid⟩
    obtain ⟨hpl, l₁, l₂, hsplit, hfail⟩ := find?_some_split _ _ _ hfind
    obtain ⟨s, hres, hcont⟩ := (hitPredicate_eq_true_iff sprites x y l).mp hpl
    have hlin : l ∈ (sortByZDesc layers).filter (fun l => l.visible) := by
      rw [hsplit]; exact List.mem_append_right _ (List.mem_cons_self _ _)
    obtain ⟨hl_mem, hl_vis⟩ := (hmemfl l).mp hlin
    refine ⟨l, hl_mem, hid, hl_vis, s, hres, hcont, ?_⟩
    intro l' hl' hvis' s' hres' hcont'
    have hpl' : hitPredicate sprites x y l' = true :=
      (hitPredicate_eq_true_iff sprites x y l').mpr ⟨s', hres', hcont'⟩
    have hl'in : l' ∈ (sortByZDesc layers).filter (fun l => l.visible) :=
      (hmemfl l').mpr ⟨hl', hvis'⟩
    rw [hsplit] at hl'in hpairfl
    rcases List.mem_append.mp hl'in with hin1 | hin2
    · exact absurd hpl' (by simp [hfail l' hin1])
    · rcases List.mem_cons.mp hin2 with rfl | hin2
      · exact le_refl _
      · have := (List.pairwise_append.mp hpairfl).2.1
        exact (List.pairwise_cons.mp this).1 l' hin2
  · unfold hitTest
    rw [Option.map_eq_none', List.find?_eq_none]
    constructor
    · intro hall l hl hvis s hres hcont
      have hpl : hitPredicate sprites x y l = true :=
        (hitPredicate_eq_true_iff sprites x y l).mpr ⟨s, hres, hcont⟩
      exact absurd hpl (by simpa using hall l ((hmemfl l).mpr ⟨hl, hvis⟩))
    · intro hnone l hl
      obtain ⟨hl_mem, hl_vis⟩ := (hmemfl l).mp hl
      intro hpl
      obtain ⟨s, hres, hcont⟩ := (hitPredicate_eq_true_iff sprites x y l).mp hpl
      exact hnone l hl_mem hl_vis s hres hcont

/-- C7 witness: with one 8×8 sprite and two visible layers at `(0,0)` (z 0)
and `(4,4)` (z 1), the point `(5,5)` is inside both boxes and hit-testing
returns the topmost layer, id 6; the returned layer satisfies the full
characterization. -/
theorem hitTest_characterization_witness :
    hitTest [⟨1, 8, 8⟩] [⟨5, 1, 0, 0, 0, true⟩, ⟨6, 1, 4, 4, 1, true⟩] 5 5 =
      some 6 ∧
    (∃ l ∈ [(⟨5, 1, 0, 0, 0, true⟩ : CompositionLayer), ⟨6, 1, 4, 4, 1, true⟩],
      l.id = 6 ∧ l.visible = true ∧
      ∃ s, resolveSprite [⟨1, 8, 8⟩] l.spriteId = some s ∧
        layerContains s l 5 5 ∧
        ∀ l' ∈ [(⟨5, 1, 0, 0, 0, true⟩ : CompositionLayer), ⟨6, 1, 4, 4, 1, true⟩],
          l'.visible = true →
          ∀ s', resolveSprite [⟨1, 8, 8⟩] l'.spriteId = some s' →
            layerContains s' l' 5 5 → l'.zIndex ≤ l.zIndex) :=
  ⟨by decide,
    (hitTest_characterization [⟨1, 8, 8⟩]
      [⟨5, 1, 0, 0, 0, true⟩, ⟨6, 1, 4, 4, 1, true⟩] 5 5).1 6 (by decide)⟩

/-! ## Layer duplication with auto-placement
(`useProject.ts`, `duplicateCompositionLayer`)

The source finds the layer, resolves its sprite (early `return` on failure:
no state update, no returned id — modelled as `none`), builds the set of
occupied 8-pitch lattice cells from **all** layers whose sprite resolves
(`composition.compositionData.layers.forEach`, no `visible` check), scans
row-major for the first position whose footprint is entirely unoccupied,
falls back to `(0, 0)`, and appends the new layer with
`zIndex = layers.length`.  `Math.floor` on a possibly-negative quotient is
`Int.fdiv`; `Math.ceil(w / 8)` on a natural is `(w + 7) / 8`. -/

/-- `maxCols = Math.floor(composition.width / gridSize)`. -/
def maxCols (comp : CompositionData) : ℤ := (comp.width / 8 : ℕ)

/-- `maxRows = Math.floor(composition.height / gridSize)`. -/
def maxRows (comp : CompositionData) : ℤ := (comp.height / 8 : ℕ)

/-- Membership in the `occupiedPositions` set: for each layer whose sprite
resolves, the cells with `startCol ≤ c ≤ endCol`, `c < maxCols`,
`startRow ≤ r ≤ endRow`, `r < maxRows`, where
`endCol = Math.floor((layer.x + width) / gridSize)` (note: `+ width`, not
`+ width - 1` — the off-by-one of C10). -/
def occupiedCell (sprites : List Sprite) (comp : CompositionData)
    (c r : ℤ) : Bool :=
  comp.layers.any (fun layer =>
    match resolveSprite sprites layer.spriteId with
    | none => false
    | some s =>
      decide (Int.fdiv layer.x 8 ≤ c ∧ c ≤ Int.fdiv (layer.x + s.width) 8 ∧
        c < maxCols comp ∧
        Int.fdiv layer.y 8 ≤ r ∧ r ≤ Int.fdiv (layer.y + s.height) 8 ∧
        r < maxRows comp))

/-- `spriteCols = Math.ceil(sprite.width / gridSize)`. -/
def spriteCols (s : Sprite) : ℕ := (s.width + 7) / 8

/-- `spriteRows = Math.ceil(sprite.height / gridSize)`. -/
def spriteRows (s : Sprite) : ℕ := (s.height + 7) / 8

/-- The inner `canPlace` check: every lattice cell of the sprite's footprint
at `(col, row)` is unoccupied. -/
def canPlaceAt (sprites : List Sprite) (comp : CompositionData) (s : Sprite)
    (col row : ℕ) : Bool :=
  (List.range (spriteRows s)).all (fun dr =>
    (List.range (spriteCols s)).all (fun dc =>
      !occupiedCell sprites comp ((col + dc : ℕ) : ℤ) ((row + dr : ℕ) : ℤ)))

/-- Number of candidate columns: the loop `for (col = 0; col <= maxCols -
spriteCols; col++)` runs `maxCols - spriteCols + 1` times (zero when the
bound is negative). -/
def colCount (comp : CompositionData) (s : Sprite) : ℕ :=
  (maxCols comp - spriteCols s + 1).toNat

/-- Number of candidate rows, symmetric to `colCount`. -/
def rowCount (comp : CompositionData) (s : Sprite) : ℕ :=
  (maxRows comp - spriteRows s + 1).toNat

/-- The row-major candidate list scanned by the placement loops (outer loop
over rows, inner over columns). -/
def placementCandidates (comp : CompositionData) (s : Sprite) : List (ℕ × ℕ) :=
  (List.range (rowCount comp s)).flatMap (fun row =>
    (List.range (colCount comp s)).map (fun col => (col, row)))

/-- The placement search: first candidate that `canPlace`; `none` models
`foundPosition` staying `false`. -/
def findPlacement (sprites : List Sprite) (comp : CompositionData)
    (s : Sprite) : Option (ℕ × ℕ) :=
  (placementCandidates comp s).find? (fun p => canPlaceAt sprites comp s p.1 p.2)

/-- `duplicateCompositionLayer` from `useProject.ts` lines 583–676.  `none`
models the early `return undefined` paths (layer not found, or dangling
sprite reference): no layer list change and no returned id.  `generateId()`
is modelled by the `freshId` parameter. -/
def duplicateCompositionLayer (sprites : List Sprite) (comp : CompositionData)
    (layerId freshId : ℕ) : Option (CompositionData × ℕ) :=
  match comp.layers.find? (fun l => l.id == layerId) with
  | none => none
  | some originalLayer =>
    match resolveSprite sprites originalLayer.spriteId with
    | none => none
    | some sprite =>
      let pos : ℤ × ℤ :=
        match findPlacement sprites comp sprite with
        | some (col, row) => ((col : ℤ) * 8, (row : ℤ) * 8)
        | none => (0, 0)
      let newLayer : CompositionLayer :=
        { id := freshId, spriteId := originalLayer.spriteId,
          x := pos.1, y := pos.2,
          zIndex := (comp.layers.length : ℤ), visible := originalLayer.visible }
      some ({ comp with layers := comp.layers ++ [newLayer] }, freshId)

/-- C9: duplicating a layer whose sprite reference is dangling is a silent
no-op — the function takes the early `return` before building anything, so
no layer is appended and no id is produced (`none`). -/
theorem duplicateLayer_dangling_noop (sprites : List Sprite)
    (comp : CompositionData) (layerId freshId : ℕ) (orig : CompositionLayer)
    (hfind : comp.layers.find? (fun l => l.id == layerId) = some orig)
    (hres : resolveSprite sprites orig.spriteId = none) :
    duplicateCompositionLayer sprites comp layerId freshId = none := by
  unfold duplicateCompositionLayer
  rw [hfind]
  simp only [hres]

/-- C9 witness: a composition with one layer referencing sprite id 42 in a
project with no sprites; duplicating that layer returns nothing. -/
theorem duplicateLayer_dangling_noop_witness :
    duplicateCompositionLayer [] ⟨16, 16, [⟨5, 42, 0, 0, 0, true⟩]⟩ 5 99 =
      none :=
  duplicateLayer_dangling_noop [] ⟨16, 16, [⟨5, 42, 0, 0, 0, true⟩]⟩ 5 99
    ⟨5, 42, 0, 0, 0, true⟩ (by decide) (by decide)

theorem mem_placementCandidates (comp : CompositionData) (s : Sprite)
    (c r : ℕ) :
    (c, r) ∈ placementCandidates comp s ↔
      c < colCount comp s ∧ r < rowCount comp s := by
  unfold placementCandidates
  simp only [List.mem_flatMap, List.mem_map, List.mem_range, Prod.mk.injEq]
  constructor
  · rintro ⟨row, hrow, col, hcol, rfl, rfl⟩
    exact ⟨hcol, hrow⟩
  · rintro ⟨hc, hr⟩
    exact ⟨r, hr, c, hc, rfl, rfl⟩

/-- The candidate list is strictly increasing in row-major order. -/
theorem placementCandidates_pairwise (comp : CompositionData) (s : Sprite) :
    (placementCandidates comp s).Pairwise
      (fun p q : ℕ × ℕ => p.2 < q.2 ∨ (p.2 = q.2 ∧ p.1 < q.1)) := by
  unfold placementCandidates
  rw [List.flatMap_def, List.pairwise_flatten]
  constructor
  · intro l hl
    obtain ⟨row, _, rfl⟩ := List.mem_map.mp hl
    rw [List.pairwise_map]
    exact (List.pairwise_lt_range _).imp (fun h => Or.inr ⟨rfl, h⟩)
  · rw [List.pairwise_map]
    refine (List.pairwise_lt_range _).imp ?_
    intro r₁ r₂ hlt x hx y hy
    obtain ⟨c₁, _, rfl⟩ := List.mem_map.mp hx
    obtain ⟨c₂, _, rfl⟩ := List.mem_map.mp hy
    exact Or.inl hlt

/-- In a row-major split `candidates = l₁ ++ p :: l₂`, every candidate
strictly before `p` in row-major order lies in `l₁`. -/
theorem placementCandidates_mem_prefix (comp : CompositionData) (s : Sprite)
    (p q : ℕ × ℕ) (l₁ l₂ : List (ℕ × ℕ))
    (hsplit : placementCandidates comp s = l₁ ++ p :: l₂)
    (hq : q ∈ placementCandidates comp s)
    (hlt : q.2 < p.2 ∨ (q.2 = p.2 ∧ q.1 < p.1)) : q ∈ l₁ := by
  have hpair := placementCandidates_pairwise comp s
  rw [hsplit] at hpair hq
  rcases List.mem_append.mp hq with h1 | h2
  · exact h1
  · rcases List.mem_cons.mp h2 with rfl | h2
    · rcases hlt with h | ⟨h, h'⟩ <;> omega
    · have hpq : p.2 < q.2 ∨ (p.2 = q.2 ∧ p.1 < q.1) := by
        have hp := (List.pairwise_append.mp hpair).2.1
        exact (List.pairwise_cons.mp hp).1 q h2
      rcases hpq with h | ⟨h, h'⟩ <;> rcases hlt with h2 | ⟨h2, h2'⟩ <;> omega

/-- C4 amended: duplicating a layer whose sprite resolves always succeeds
and appends exactly one new layer carrying the same `spriteId` and
`visible` flag, the fresh id, and `zIndex = layers.length`; its position is
the row-major-first lattice position whose footprint overlaps no occupied
cell — where occupancy is contributed by **every** existing layer whose
sprite resolves, visible or not — and `(0, 0)` when no candidate position
is free. -/
theorem duplicateLayer_spec (sprites : List Sprite) (comp : CompositionData)
    (layerId freshId : ℕ) (orig : CompositionLayer) (s : Sprite)
    (hfind : comp.layers.find? (fun l => l.id == layerId) = some orig)
    (hres : resolveSprite sprites orig.spriteId = some s) :
    ∃ newLayer : CompositionLayer,
      duplicateCompositionLayer sprites comp layerId freshId =
        some ({ comp with layers := comp.layers ++ [newLayer] }, freshId) ∧
      newLayer.id = freshId ∧
      newLayer.spriteId = orig.spriteId ∧
      newLayer.visible = orig.visible ∧
      newLayer.zIndex = (comp.layers.length : ℤ) ∧
      ((∃ col row : ℕ, col < colCount comp s ∧ row < rowCount comp s ∧
          canPlaceAt sprites comp s col row = true ∧
          (∀ col' row' : ℕ, col' < colCount comp s → row' < rowCount comp s →
            (row' < row ∨ (row' = row ∧ col' < col)) →
            canPlaceAt sprites comp s col' row' = false) ∧
          newLayer.x = (col : ℤ) * 8 ∧ newLayer.y = (row : ℤ) * 8) ∨
        ((∀ col row : ℕ, col < colCount comp s → row < rowCount comp s →
            canPlaceAt sprites comp s col row = false) ∧
          newLayer.x = 0 ∧ newLayer.y = 0)) := by
  unfold duplicateCompositionLayer
  rw [hfind]
  simp only [hres]
  cases hplace : findPlacement sprites comp s with
  | some cr =>
    obtain ⟨col, row⟩ := cr
    obtain ⟨hcan, l₁, l₂, hsplit, hfail⟩ :=
      find?_some_split _ _ _ (by unfold findPlacement at hplace; exact hplace)
    have hmem : (col, row) ∈ placementCandidates comp s := by
      rw [hsplit]
      exact List.mem_append_right _ (List.mem_cons_self _ _)
    obtain ⟨hc, hr⟩ := (mem_placementCandidates comp s col row).mp hmem
    refine ⟨⟨freshId, orig.spriteId, (col : ℤ) * 8, (row : ℤ) * 8,
      (comp.layers.length : ℤ), orig.visible⟩,
      ?_, rfl, rfl, rfl, rfl, Or.inl ⟨col, row, hc, hr, hcan, ?_, rfl, rfl⟩⟩
    · simp only [hplace]
    · intro col' row' hc' hr' hlt
      have hq : (col', row') ∈ placementCandidates comp s :=
        (mem_placementCandidates comp s col' row').mpr ⟨hc', hr'⟩
      have hin : (col', row') ∈ l₁ :=
        placementCandidates_mem_prefix comp s (col, row) (col', row') l₁ l₂
          hsplit hq (by simpa using hlt)
      simpa using hfail _ hin
  | none =>
    refine ⟨⟨freshId, orig.spriteId, 0, 0, (comp.layers.length : ℤ),
      orig.visible⟩, ?_, rfl, rfl, rfl, rfl, Or.inr ⟨?_, rfl, rfl⟩⟩
    · simp only [hplace]
    · intro col row hc hr
      have := List.find?_eq_none.mp
        (by unfold findPlacement at hplace; exact hplace) (col, row)
        ((mem_placementCandidates comp s col row).mpr ⟨hc, hr⟩)
      simpa using this

/-- C4 witness: a composition whose 8×8 lattice is fully occupied by one
8×8 visible layer; duplicating that layer succeeds and falls back to
`(0, 0)` (overlapping at the origin), with `zIndex = 1` (new top layer). -/
theorem duplicateLayer_spec_witness :
    duplicateCompositionLayer [⟨1, 8, 8⟩] ⟨8, 8, [⟨10, 1, 0, 0, 0, true⟩]⟩ 10 99 =
      some (⟨8, 8, [⟨10, 1, 0, 0, 0, true⟩, ⟨99, 1, 0, 0, 1, true⟩]⟩, 99) ∧
    (∃ newLayer : CompositionLayer,
      duplicateCompositionLayer [⟨1, 8, 8⟩] ⟨8, 8, [⟨10, 1, 0, 0, 0, true⟩]⟩ 10 99 =
        some ({ width := 8, height := 8,
                layers := [⟨10, 1, 0, 0, 0, true⟩] ++ [newLayer] }, 99) ∧
      newLayer.id = 99 ∧
      newLayer.spriteId = 1 ∧
      newLayer.visible = true ∧
      newLayer.zIndex = (1 : ℤ) ∧
      ((∃ col row : ℕ,
          col < colCount ⟨8, 8, [⟨10, 1, 0, 0, 0, true⟩]⟩ ⟨1, 8, 8⟩ ∧
          row < rowCount ⟨8, 8, [⟨10, 1, 0, 0, 0, true⟩]⟩ ⟨1, 8, 8⟩ ∧
          canPlaceAt [⟨1, 8, 8⟩] ⟨8, 8, [⟨10, 1, 0, 0, 0, true⟩]⟩ ⟨1, 8, 8⟩ col row = true ∧
          (∀ col' row' : ℕ,
            col' < colCount ⟨8, 8, [⟨10, 1, 0, 0, 0, true⟩]⟩ ⟨1, 8, 8⟩ →
            row' < rowCount ⟨8, 8, [⟨10, 1, 0, 0, 0, true⟩]⟩ ⟨1, 8, 8⟩ →
            (row' < row ∨ (row' = row ∧ col' < col)) →
            canPlaceAt [⟨1, 8, 8⟩] ⟨8, 8, [⟨10, 1, 0, 0, 0, true⟩]⟩ ⟨1, 8, 8⟩ col' row' = false) ∧
          newLayer.x = (col : ℤ) * 8 ∧ newLayer.y = (row : ℤ) * 8) ∨
        ((∀ col row : ℕ,
            col < colCount ⟨8, 8, [⟨10, 1, 0, 0, 0, true⟩]⟩ ⟨1, 8, 8⟩ →
            row < rowCount ⟨8, 8, [⟨10, 1, 0, 0, 0, true⟩]⟩ ⟨1, 8, 8⟩ →
            canPlaceAt [⟨1, 8, 8⟩] ⟨8, 8, [⟨10, 1, 0, 0, 0, true⟩]⟩ ⟨1, 8, 8⟩ col row = false) ∧
          newLayer.x = 0 ∧ newLayer.y = 0))) :=
  ⟨by decide,
    duplicateLayer_spec [⟨1, 8, 8⟩] ⟨8, 8, [⟨10, 1, 0, 0, 0, true⟩]⟩ 10 99
      ⟨10, 1, 0, 0, 0, true⟩ ⟨1, 8, 8⟩ (by decide) (by decide)⟩

/-- Modelled from the spec for comparison with the code: occupancy as the
spec words it — "does not overlap any existing **visible** layer's bounding
box (computed via occupied-cell-set membership on the grid-pitch lattice)" —
i.e. `occupiedCell` restricted to visible layers. -/
def specVisibleOccupiedCell (sprites : List Sprite) (comp : CompositionData)
    (c r : ℤ) : Bool :=
  comp.layers.any (fun layer =>
    layer.visible &&
    match resolveSprite sprites layer.spriteId with
    | none => false
    | some s =>
      decide (Int.fdiv layer.x 8 ≤ c ∧ c ≤ Int.fdiv (layer.x + s.width) 8 ∧
        c < maxCols comp ∧
        Int.fdiv layer.y 8 ≤ r ∧ r ≤ Int.fdiv (layer.y + s.height) 8 ∧
        r < maxRows comp))

/-- Modelled from the spec: `canPlace` over the visible-only occupancy. -/
def specVisibleCanPlaceAt (sprites : List Sprite) (comp : CompositionData)
    (s : Sprite) (col row : ℕ) : Bool :=
  (List.range (spriteRows s)).all (fun dr =>
    (List.range (spriteCols s)).all (fun dc =>
      !specVisibleOccupiedCell sprites comp ((col + dc : ℕ) : ℤ)
        ((row + dr : ℕ) : ℤ)))

/-- Modelled from the spec: the auto-placement position the spec describes
(row-major-first position free of visible layers, fallback `(0,0)`). -/
def specVisibleAutoPlacement (sprites : List Sprite) (comp : CompositionData)
    (s : Sprite) : ℤ × ℤ :=
  match (placementCandidates comp s).find?
      (fun p => specVisibleCanPlaceAt sprites comp s p.1 p.2) with
  | some (col, row) => ((col : ℤ) * 8, (row : ℤ) * 8)
  | none => (0, 0)

/-- C4 counterexample: a 24×8 composition whose only layer is **invisible**
(8×8 sprite at the origin).  The spec's visible-only search would place the
duplicate at `(0, 0)`, but the code's occupancy ignores visibility and
places it at `(16, 0)`. -/
theorem duplicateLayer_visible_counterexample :
    duplicateCompositionLayer [⟨1, 8, 8⟩] ⟨24, 8, [⟨10, 1, 0, 0, 0, false⟩]⟩ 10 99 =
      some (⟨24, 8, [⟨10, 1, 0, 0, 0, false⟩, ⟨99, 1, 16, 0, 1, false⟩]⟩, 99) ∧
    specVisibleAutoPlacement [⟨1, 8, 8⟩] ⟨24, 8, [⟨10, 1, 0, 0, 0, false⟩]⟩
      ⟨1, 8, 8⟩ = (0, 0) ∧
    ((16 : ℤ), (0 : ℤ)) ≠ ((0 : ℤ), (0 : ℤ)) := by
  refine ⟨by decide, by decide, by decide⟩

/-- C10: when `layer.x + width` is an exact multiple of 8, the occupancy
loop's `endCol = Math.floor((layer.x + width) / 8)` denotes the lattice
column starting exactly at the bounding box's right edge: that column
contains no pixel of the box, yet (subject to the `< maxCols`/`< maxRows`
loop bounds) it is marked occupied. -/
theorem occupancy_extra_column (sprites : List Sprite) (comp : CompositionData)
    (l : CompositionLayer) (s : Sprite)
    (hl : l ∈ comp.layers)
    (hres : resolveSprite sprites l.spriteId = some s)
    (hw : 0 < s.width)
    (hdvd : (8 : ℤ) ∣ (l.x + s.width)) :
    8 * Int.fdiv (l.x + s.width) 8 = l.x + s.width ∧
    (∀ px : ℤ, l.x ≤ px → px < l.x + s.width →
      px < 8 * Int.fdiv (l.x + s.width) 8) ∧
    (∀ r : ℤ, Int.fdiv l.y 8 ≤ r → r ≤ Int.fdiv (l.y + s.height) 8 →
      r < maxRows comp → Int.fdiv (l.x + s.width) 8 < maxCols comp →
      occupiedCell sprites comp (Int.fdiv (l.x + s.width) 8) r = true) := by
  have h8 : ∀ a : ℤ, Int.fdiv a 8 = a / 8 :=
    fun a => Int.fdiv_eq_ediv a (by norm_num)
  refine ⟨by rw [h8]; omega, ?_, ?_⟩
  · intro px h1 h2
    rw [h8]
    omega
  · intro r hr1 hr2 hr3 hc
    unfold occupiedCell
    rw [List.any_eq_true]
    refine ⟨l, hl, ?_⟩
    simp only [hres, decide_eq_true_eq]
    refine ⟨?_, le_refl _, hc, hr1, hr2, hr3⟩
    rw [h8, h8]
    omega

/-- C10 witness: 24×8 composition, one visible 8×8 layer at `(0,0)`.
Lattice column 1 (pixels 8–15) is marked occupied although the layer's box
is `[0,8) × [0,8)`, so duplicating places the copy at `(16,0)`, skipping the
adjacent non-overlapping spot `(8,0)`. -/
theorem occupancy_extra_column_witness :
    duplicateCompositionLayer [⟨1, 8, 8⟩] ⟨24, 8, [⟨10, 1, 0, 0, 0, true⟩]⟩ 10 99 =
      some (⟨24, 8, [⟨10, 1, 0, 0, 0, true⟩, ⟨99, 1, 16, 0, 1, true⟩]⟩, 99) ∧
    (∀ px : ℤ, 8 ≤ px → px < 16 → ¬ (0 ≤ px ∧ px < 8)) ∧
    occupiedCell [⟨1, 8, 8⟩] ⟨24, 8, [⟨10, 1, 0, 0, 0, true⟩]⟩ 1 0 = true :=
  ⟨by decide, by intro px h1 h2; omega,
    (occupancy_extra_column [⟨1, 8, 8⟩] ⟨24, 8, [⟨10, 1, 0, 0, 0, true⟩]⟩
      ⟨10, 1, 0, 0, 0, true⟩ ⟨1, 8, 8⟩ (by decide) (by decide) (by decide)
      (by decide)).2.2 0 (by decide) (by decide) (by decide) (by decide)⟩

/-! ## Sprite grid resize (`useProject.ts`, `resizeItem` lines 139–175)

`resizeItem` allocates `createEmptyPixelGrid(width, height)`, then for
`y < min(height, old.height)`, `x < min(width, old.width)` copies
`newPixels[y][x] = oldPixels[y][x]`, guarded by
`oldPixels[y] && oldPixels[y][x] !== undefined` (modelled with `getElem?`).
The imperative double loop is embedded as a left fold of single-cell writes
over the row-major index ranges. -/

/-- Modelled from the spec: `createEmptyPixelGrid` lives in
`src/utils/drawing.ts`, which is not among the sources; the spec's
`create(width, height)` yields a grid with all cells `false`. -/
def createEmptyPixelGrid (w h : ℕ) : List (List Bool) :=
  List.replicate h (List.replicate w false)

/-- The single assignment `newPixels[y][x] = v`. -/
def setPixel (g : List (List Bool)) (y x : ℕ) (v : Bool) : List (List Bool) :=
  g.set y ((g[y]?.getD []).set x v)

/-- One iteration of the copy loop body, including the source-existence
guard `oldPixels[y] && oldPixels[y][x] !== undefined`. -/
def copyCell (oldPixels : List (List Bool)) (y x : ℕ)
    (acc : List (List Bool)) : List (List Bool) :=
  match oldPixels[y]? with
  | none => acc
  | some row =>
    match row[x]? with
    | none => acc
    | some v => setPixel acc y x v

/-- The grid produced by `resizeItem`: empty `w × h` grid, then the double
copy loop over `y < min h oldH`, `x < min w oldW`. -/
def resizePixels (oldPixels : List (List Bool)) (oldW oldH w h : ℕ) :
    List (List Bool) :=
  let copyW := min w oldW
  let copyH := min h oldH
  (List.range copyH).foldl
    (fun acc y =>
      (List.range copyW).foldl (fun acc2 x => copyCell oldPixels y x acc2) acc)
    (createEmptyPixelGrid w h)

/-- Reading a cell, with `false` for any out-of-range access (matching the
spec's out-of-bounds contract for `get`). -/
def cellAt (g : List (List Bool)) (y x : ℕ) : Bool :=
  (g[y]?.getD []).getD x false

theorem cellAt_empty (w h y x : ℕ) :
    cellAt (createEmptyPixelGrid w h) y x = false := by
  unfold cellAt createEmptyPixelGrid
  rw [List.getElem?_replicate]
  by_cases hy : y < h
  · rw [if_pos hy]
    by_cases hx : x < w
    · have hx' : x < (List.replicate w false).length := by simpa using hx
      simp [List.getD_eq_getElem _ _ hx', List.getElem_replicate]
    · exact List.getD_eq_default _ _ (by simpa using not_lt.mp hx)
  · rw [if_neg hy]
    exact List.getD_eq_default _ _ (by simp)

theorem length_setPixel (g : List (List Bool)) (y x : ℕ) (v : Bool) :
    (setPixel g y x v).length = g.length := List.length_set g y _

theorem rowlen_setPixel (g : List (List Bool)) (y x : ℕ) (v : Bool) (w : ℕ)
    (hy : y < g.length) (hall : ∀ row ∈ g, row.length = w) :
    ∀ row ∈ setPixel g y x v, row.length = w := by
  intro row hrow
  rcases List.mem_or_eq_of_mem_set hrow with h | rfl
  · exact hall _ h
  · rw [List.length_set]
    rw [List.getElem?_eq_getElem hy]
    exact hall _ (List.getElem_mem hy)

theorem cellAt_setPixel_ne_row (g : List (List Bool)) (y x : ℕ) (v : Bool)
    (y' x' : ℕ) (h : y' ≠ y) :
    cellAt (setPixel g y x v) y' x' = cellAt g y' x' := by
  unfold cellAt setPixel
  rw [List.getElem?_set_ne (Ne.symm h)]

theorem cellAt_setPixel_ne_col (g : List (List Bool)) (y x : ℕ) (v : Bool)
    (x' : ℕ) (hy : y < g.length) (h : x' ≠ x) :
    cellAt (setPixel g y x v) y x' = cellAt g y x' := by
  unfold cellAt setPixel
  rw [List.getElem?_set_self hy]
  simp only [Option.getD_some]
  rw [List.getD_eq_getElem?_getD, List.getElem?_set_ne (Ne.symm h),
    ← List.getD_eq_getElem?_getD]

theorem cellAt_setPixel_self (g : List (List Bool)) (y x : ℕ) (v : Bool)
    (hy : y < g.length) (hx : x < (g[y]?.getD []).length) :
    cellAt (setPixel g y x v) y x = v := by
  unfold cellAt setPixel
  rw [List.getElem?_set_self hy]
  simp only [Option.getD_some]
  rw [List.getD_eq_getElem?_getD, List.getElem?_set_self hx]
  rfl

/-- Effect of the inner copy loop (`x` from `0` to `n - 1` on row `y`):
shape preserved, other rows untouched, columns `≥ n` untouched, columns
`< n` copied from the old grid. -/
theorem copyRow_fold (old : List (List Bool)) (oldW oldH w h : ℕ)
    (wfLen : old.length = oldH) (wfRow : ∀ row ∈ old, row.length = oldW)
    (y : ℕ) (hy : y < min h oldH) :
    ∀ (n : ℕ), n ≤ min w oldW →
    ∀ (g : List (List Bool)), g.length = h → (∀ row ∈ g, row.length = w) →
      ((List.range n).foldl (fun acc2 x => copyCell old y x acc2) g).length = h ∧
      (∀ row ∈ (List.range n).foldl (fun acc2 x => copyCell old y x acc2) g,
        row.length = w) ∧
      (∀ y' x', y' ≠ y →
        cellAt ((List.range n).foldl (fun acc2 x => copyCell old y x acc2) g) y' x' =
          cellAt g y' x') ∧
      (∀ x', n ≤ x' →
        cellAt ((List.range n).foldl (fun acc2 x => copyCell old y x acc2) g) y x' =
          cellAt g y x') ∧
      (∀ x', x' < n →
        cellAt ((List.range n).foldl (fun acc2 x => copyCell old y x acc2) g) y x' =
          cellAt old y x') := by
  intro n
  induction n with
  | zero =>
    intro _ g hgLen hgRow
    exact ⟨hgLen, hgRow, fun _ _ _ => rfl, fun _ _ => rfl,
      fun _ hx => absurd hx (by omega)⟩
  | succ n ih =>
    intro hn g hgLen hgRow
    have hn' : n ≤ min w oldW := by omega
    obtain ⟨ihLen, ihRow, ihNe, ihHigh, ihLow⟩ := ih hn' g hgLen hgRow
    set gmid := (List.range n).foldl (fun acc2 x => copyCell old y x acc2) g
      with hgmid
    have hstep : (List.range (n + 1)).foldl
        (fun acc2 x => copyCell old y x acc2) g = copyCell old y n gmid := by
      rw [List.range_succ, List.foldl_append]
      rfl
    have hyold : y < old.length := by omega
    have hrowy : old[y]? = some old[y] := List.getElem?_eq_getElem hyold
    have hrowlen : old[y].length = oldW := wfRow _ (List.getElem_mem hyold)
    have hxn : n < old[y].length := by omega
    have hcell : copyCell old y n gmid = setPixel gmid y n old[y][n] := by
      unfold copyCell
      rw [hrowy]
      simp only [List.getElem?_eq_getElem hxn]
    have hygmid : y < gmid.length := by omega
    have hxgmid : n < (gmid[y]?.getD []).length := by
      rw [List.getElem?_eq_getElem hygmid]
      have := ihRow _ (List.getElem_mem hygmid)
      simp only [Option.getD_some]
      omega
    rw [hstep, hcell]
    refine ⟨?_, ?_, ?_, ?_, ?_⟩
    · rw [length_setPixel]; exact ihLen
    · exact rowlen_setPixel _ _ _ _ _ hygmid ihRow
    · intro y' x' hne
      rw [cellAt_setPixel_ne_row _ _ _ _ _ _ hne]
      exact ihNe y' x' hne
    · intro x' hx'
      rw [cellAt_setPixel_ne_col _ _ _ _ _ hygmid (by omega)]
      exact ihHigh x' (by omega)
    · intro x' hx'
      by_cases heq : x' = n
      · subst heq
        rw [cellAt_setPixel_self _ _ _ _ hygmid hxgmid]
        unfold cellAt
        rw [hrowy]
        simp only [Option.getD_some]
        rw [List.getD_eq_getElem _ _ hxn]
      · rw [cellAt_setPixel_ne_col _ _ _ _ _ hygmid heq]
        exact ihLow x' (by omega)

/-- Effect of the outer copy loop (`y` from `0` to `k - 1`): rows `< k` carry
the copied region, everything else is still `false`. -/
theorem resize_outer_fold (old : List (List Bool)) (oldW oldH w h : ℕ)
    (wfLen : old.length = oldH) (wfRow : ∀ row ∈ old, row.length = oldW) :
    ∀ (k : ℕ), k ≤ min h oldH →
      ((List.range k).foldl
        (fun acc y =>
          (List.range (min w oldW)).foldl (fun acc2 x => copyCell old y x acc2) acc)
        (createEmptyPixelGrid w h)).length = h ∧
      (∀ row ∈ (List.range k).foldl
        (fun acc y =>
          (List.range (min w oldW)).foldl (fun acc2 x => copyCell old y x acc2) acc)
        (createEmptyPixelGrid w h), row.length = w) ∧
      (∀ y x : ℕ,
        cellAt ((List.range k).foldl
          (fun acc y =>
            (List.range (min w oldW)).foldl (fun acc2 x => copyCell old y x acc2) acc)
          (createEmptyPixelGrid w h)) y x =
        if y < k ∧ x < min w oldW then cellAt old y x else false) := by
  intro k
  induction k with
  | zero =>
    intro _
    refine ⟨by simp [createEmptyPixelGrid], ?_, ?_⟩
    · intro row hrow
      simp only [List.range_zero, List.foldl_nil, createEmptyPixelGrid] at hrow
      rw [List.mem_replicate] at hrow
      simp [hrow.2]
    · intro y x
      rw [if_neg (by omega)]
      simp only [List.range_zero, List.foldl_nil]
      exact cellAt_empty w h y x
  | succ k ih =>
    intro hk
    obtain ⟨ihLen, ihRow, ihCell⟩ := ih (by omega)
    set G := (List.range k).foldl
      (fun acc y =>
        (List.range (min w oldW)).foldl (fun acc2 x => copyCell old y x acc2) acc)
      (createEmptyPixelGrid w h) with hG
    have hstep : (List.range (k + 1)).foldl
        (fun acc y =>
          (List.range (min w oldW)).foldl (fun acc2 x => copyCell old y x acc2) acc)
        (createEmptyPixelGrid w h) =
        (List.range (min w oldW)).foldl (fun acc2 x => copyCell old k x acc2) G := by
      rw [List.range_succ, List.foldl_append]
      rfl
    have hkk : k < min h oldH := by omega
    obtain ⟨rLen, rRow, rNe, _, rLow⟩ :=
      copyRow_fold old oldW oldH w h wfLen wfRow k hkk (min w oldW) (le_refl _)
        G ihLen ihRow
    rw [hstep]
    refine ⟨rLen, rRow, ?_⟩
    intro y x
    by_cases hy : y = k
    · subst hy
      by_cases hx : x < min w oldW
      · rw [rLow x hx, if_pos ⟨by omega, hx⟩]
      · rw [(copyRow_fold old oldW oldH w h wfLen wfRow y hkk (min w oldW)
          (le_refl _) G ihLen ihRow).2.2.2.1 x (by omega)]
        rw [ihCell y x, if_neg (by omega), if_neg (by omega)]
    · rw [rNe y x hy, ihCell y x]
      by_cases hlt : y < k
      · by_cases hx : x < min w oldW
        · rw [if_pos ⟨hlt, hx⟩, if_pos ⟨by omega, hx⟩]
        · rw [if_neg (by omega), if_neg (by omega)]
      · rw [if_neg (by omega), if_neg (by omega)]

/-- Full characterization of `resizePixels` on a well-formed grid. -/
theorem resizePixels_cells (old : List (List Bool)) (oldW oldH w h : ℕ)
    (wfLen : old.length = oldH) (wfRow : ∀ row ∈ old, row.length = oldW) :
    (resizePixels old oldW oldH w h).length = h ∧
    (∀ row ∈ resizePixels old oldW oldH w h, row.length = w) ∧
    (∀ y x : ℕ, cellAt (resizePixels old oldW oldH w h) y x =
      if y < min h oldH ∧ x < min w oldW then cellAt old y x else false) :=
  resize_outer_fold old oldW oldH w h wfLen wfRow (min h oldH) (le_refl _)

/-- C5: resizing a well-formed `oldW × oldH` grid to positive dimensions
`w × h` yields a `w × h` grid whose top-left
`min w oldW × min h oldH` region is copied verbatim from the old grid and
whose every other cell is `false`. -/
theorem resizeItem_spec (old : List (List Bool)) (oldW oldH w h : ℕ)
    (wfLen : old.length = oldH) (wfRow : ∀ row ∈ old, row.length = oldW)
    (hw : 0 < w) (hh : 0 < h) :
    (resizePixels old oldW oldH w h).length = h ∧
    (∀ row ∈ resizePixels old oldW oldH w h, row.length = w) ∧
    (∀ y x : ℕ, cellAt (resizePixels old oldW oldH w h) y x =
      if y < min h oldH ∧ x < min w oldW then cellAt old y x else false) :=
  resizePixels_cells old oldW oldH w h wfLen wfRow

/-- C5 witness: resizing the 2×2 grid `[[T,F],[F,T]]` to 3×1 keeps the
copied `[T,F]` and pads with `false`. -/
theorem resizeItem_spec_witness :
    resizePixels [[true, false], [false, true]] 2 2 3 1 = [[true, false, false]] ∧
    cellAt (resizePixels [[true, false], [false, true]] 2 2 3 1) 0 1 =
      (if 0 < min 1 2 ∧ 1 < min 3 2
        then cellAt [[true, false], [false, true]] 0 1 else false) :=
  ⟨by decide,
    (resizeItem_spec [[true, false], [false, true]] 2 2 3 1 (by decide)
      (by decide) (by decide) (by decide)).2.2 0 1⟩

/-- C6: resizing a well-formed grid to `w × h` (`w, h ≥ 1`) and then back to
its original dimensions restores every cell of the shared sub-rectangle
(coordinates below `min w oldW` and `min h oldH`). -/
theorem resize_roundtrip (old : List (List Bool)) (oldW oldH w h : ℕ)
    (wfLen : old.length = oldH) (wfRow : ∀ row ∈ old, row.length = oldW)
    (hw : 1 ≤ w) (hh : 1 ≤ h) :
    ∀ y x : ℕ, y < min h oldH → x < min w oldW →
      cellAt (resizePixels (resizePixels old oldW oldH w h) w h oldW oldH) y x =
        cellAt old y x := by
  intro y x hy hx
  obtain ⟨h1Len, h1Row, h1Cell⟩ := resizePixels_cells old oldW oldH w h wfLen wfRow
  obtain ⟨h2Len, h2Row, h2Cell⟩ := resizePixels_cells
    (resizePixels old oldW oldH w h) w h oldW oldH h1Len h1Row
  rw [h2Cell y x, if_pos ⟨by omega, by omega⟩, h1Cell y x, if_pos ⟨hy, hx⟩]

/-- C6 witness: the 1×2 grid `[[T],[F]]` resized to 3×1 and back to 1×2
restores the surviving cell `(0,0)`. -/
theorem resize_roundtrip_witness :
    cellAt (resizePixels (resizePixels [[true], [false]] 1 2 3 1) 3 1 1 2) 0 0 =
      cellAt [[true], [false]] 0 0 :=
  resize_roundtrip [[true], [false]] 1 2 3 1 (by decide) (by decide)
    (by decide) (by decide) 0 0 (by decide) (by decide)

end ArduboyPixels
